import Mathlib

/-!
# Verification of the audio-share streaming server core

A shallow embedding, in Lean 4, of the networking and session engine of the
audio-share server (`src/server-core/src`), together with theorems settling
the testable properties of its specification.

Conventions of the embedding:
* machine integers are modelled as `Nat` (no arithmetic here ever overflows the
  C++ types on the inputs considered, and every quantity involved is
  non-negative);
* byte buffers (`std::vector<uint8_t>`, `const char*` spans) are `List Nat`;
* monotonic time (`std::chrono::steady_clock::time_point`) is `ℚ`;
* fallible or possibly non-terminating code returns `Option`; a loop whose
  termination depends on data is given explicit fuel, and returns `none`
  exactly when no amount of fuel makes it finish (this is proved where used).
-/

namespace AudioShare

/-! ## Constants (`src/server-core/src/constants.hpp`) -/

def DEFAULT_MTU : Nat := 1492

def IPV6_HEADER_SIZE : Nat := 40

def UDP_HEADER_SIZE : Nat := 8

/-- `MAX_UDP_PAYLOAD_SIZE = DEFAULT_MTU - IPV6_HEADER_SIZE - UDP_HEADER_SIZE = 1444`. -/
def MAX_UDP_PAYLOAD_SIZE : Nat := DEFAULT_MTU - IPV6_HEADER_SIZE - UDP_HEADER_SIZE

/-- `HEARTBEAT_INTERVAL = std::chrono::seconds(3)`, in seconds. -/
def HEARTBEAT_INTERVAL : ℚ := 3

/-- `HEARTBEAT_TIMEOUT = std::chrono::seconds(5)`, in seconds. -/
def HEARTBEAT_TIMEOUT : ℚ := 5

/-! ## UDP segmentation (`network_manager::broadcast_audio_data`, lines 461-476)

The C++ computes
`max_seg_size = MAX_UDP_PAYLOAD_SIZE; max_seg_size -= max_seg_size % block_align;`
and then loops, carving `min(count - begin_pos, max_seg_size)` bytes per
segment until `begin_pos` reaches `count`. -/

/-- Per-segment capacity: `MAX_UDP_PAYLOAD_SIZE - MAX_UDP_PAYLOAD_SIZE % blockAlign`. -/
def segCap (blockAlign : Nat) : Nat :=
  MAX_UDP_PAYLOAD_SIZE - MAX_UDP_PAYLOAD_SIZE % blockAlign

/-- The segmentation loop of `broadcast_audio_data`.  One recursive step carves
`real := min data.length cap` bytes (the C++ `real_seg_size`) off the front.
When `cap = 0` (which happens when `block_align > 1444`) the C++ loop never
advances `begin_pos` and runs forever; `fuel` makes the model total, and
`segmentLoop_zero_cap` below proves that in that situation the model returns
`none` for every fuel, i.e. the `none` result is genuine non-termination and
not a fuel artifact.  `segmentLoop_sound` proves that fuel `data.length`
always suffices when `cap > 0`. -/
def segmentLoop (cap : Nat) : Nat → List Nat → Option (List (List Nat))
  | _, [] => some []
  | 0, _ :: _ => none
  | fuel + 1, d :: ds =>
    let real := min (d :: ds).length cap
    (segmentLoop cap fuel ((d :: ds).drop real)).map (fun rest => (d :: ds).take real :: rest)

/-- The list of UDP segments produced by one `broadcast_audio_data(data, len, align)`
call (the `seg_list` of the C++), or `none` when the C++ loop does not terminate. -/
def broadcastSegments (blockAlign : Nat) (data : List Nat) : Option (List (List Nat)) :=
  segmentLoop (segCap blockAlign) data.length data

/-! ## Control-plane data model (`network_manager.hpp` / `network_manager.cpp`)

A TCP peer socket is identified by a `Nat` handle (the C++ keys the registry
by `std::shared_ptr<tcp_socket>` identity).  `asio::ip::udp::endpoint` is
modelled by `Endpoint`; a default-constructed asio endpoint is IPv4
`0.0.0.0:0`, captured by `defaultEndpoint`. -/

structure Endpoint where
  isV4 : Bool
  /-- Whether the (IPv6) address is an IPv4-mapped address `::ffff:x.x.x.x`;
  meaningful only when `isV4 = false`. -/
  isV4Mapped : Bool
  addr : Nat
  port : Nat
deriving DecidableEq

/-- A default-constructed `asio::ip::udp::endpoint`: IPv4 `0.0.0.0`, port 0. -/
def defaultEndpoint : Endpoint :=
  { isV4 := true, isV4Mapped := false, addr := 0, port := 0 }

/-- `network_manager::peer_info_t`: peer id, UDP endpoint (default-constructed
until a registration datagram arrives; the C++ has no option type here), and
the atomic `last_tick` timestamp. -/
structure PeerInfo where
  id : Nat
  udpPeer : Endpoint
  lastTick : ℚ
deriving DecidableEq

/-- The mutable state of `network_manager` relevant to the control plane:
`_playing_peer_list` (an association list keyed by socket handle; the C++
`std::map` keys are unique, which `addPlayingPeer`'s duplicate check
preserves) and the process-wide `static int g_id` counter. -/
structure ServerState where
  registry : List (Nat × PeerInfo)
  counter : Nat
deriving DecidableEq

def initialServerState : ServerState := { registry := [], counter := 0 }

/-- A fresh `peer_info_t` as built by `add_playing_peer`: the given id, a
default-constructed UDP endpoint, and `last_tick` set to now. -/
def freshPeerInfo (id : Nat) (now : ℚ) : PeerInfo :=
  { id := id, udpPeer := defaultEndpoint, lastTick := now }

/-- `network_manager::add_playing_peer`: under the registry lock, if the
socket is already present, log an error and return 0; otherwise insert a
fresh `peer_info_t` with id `++g_id` and return that id. -/
def addPlayingPeer (s : ServerState) (sock : Nat) (now : ℚ) : ServerState × Nat :=
  if s.registry.any (fun e => e.1 == sock) then (s, 0)
  else
    ({ registry := s.registry ++ [(sock, freshPeerInfo (s.counter + 1) now)],
       counter := s.counter + 1 }, s.counter + 1)

/-- `network_manager::remove_playing_peer`: erase the entry keyed by the
socket (at most one exists, as `std::map` keys are unique). -/
def removePlayingPeer (s : ServerState) (sock : Nat) : ServerState :=
  { s with registry := s.registry.filter (fun e => !(e.1 == sock)) }

/-- `network_manager::close_session`: remove the peer from the registry, then
shut down and close the socket (the socket itself is outside this state). -/
def closeSession (s : ServerState) (sock : Nat) : ServerState :=
  removePlayingPeer s sock

/-- The IPv4-mapped-IPv6 unwrapping done by `fill_udp_peer`: an address
`::ffff:x.x.x.x` is converted to the plain IPv4 `x.x.x.x`. -/
def unwrapV4Mapped (ep : Endpoint) : Endpoint :=
  if !ep.isV4 && ep.isV4Mapped then { ep with isV4 := true, isV4Mapped := false }
  else ep

/-- Update of the first registry entry whose `peer_info_t.id` matches
(`std::find_if` + assignment in `fill_udp_peer`). -/
def fillFirst : List (Nat × PeerInfo) → Nat → Endpoint → List (Nat × PeerInfo)
  | [], _, _ => []
  | e :: rest, id, ep =>
    if e.2.id == id then (e.1, { e.2 with udpPeer := ep }) :: rest
    else e :: fillFirst rest id ep

/-- `network_manager::fill_udp_peer`: locate the peer whose id matches the
registration datagram's payload and attach the (unwrapped) source endpoint;
if no peer matches, log and drop. -/
def fillUdpPeer (s : ServerState) (id : Nat) (ep : Endpoint) : ServerState :=
  { s with registry := fillFirst s.registry id (unwrapV4Mapped ep) }

/-- The endpoint snapshot taken by `broadcast_audio_data` (lines 478-502):
for every registry entry, the stored `udp_peer` is kept exactly when
`(is_server_v4 && udp_ep.is_v4()) || (!is_server_v4 && udp_ep.is_v6())`;
mismatching peers are only logged.  Registration (whether a datagram ever
filled the endpoint) is not consulted. -/
def dispatchEndpoints (isServerV4 : Bool) (registry : List (Nat × PeerInfo)) :
    List Endpoint :=
  registry.filterMap fun e =>
    if (isServerV4 && e.2.udpPeer.isV4) || (!isServerV4 && !e.2.udpPeer.isV4) then
      some e.2.udpPeer
    else none

/-- Wire messages the server writes on a peer's TCP stream. -/
inductive SrvMsg where
  | formatReply (payload : List Nat) : SrvMsg
  | startReply (id : Nat) : SrvMsg
  | heartbeat : SrvMsg
deriving DecidableEq

/-- The `cmd_start_play` branch of `network_manager::read_loop`
(lines 256-274): call `add_playing_peer`; on `id <= 0` log an error, close
the session and break (no bytes are written to the peer); otherwise write
the `(cmd, id)` reply and spawn the heartbeat loop.  Result: new state, the
messages written to this peer, and whether the connection was closed. -/
def handleStartPlay (s : ServerState) (sock : Nat) (now : ℚ) :
    ServerState × List SrvMsg × Bool :=
  let r := addPlayingPeer s sock now
  if r.2 = 0 then (closeSession r.1 sock, [], true)
  else (r.1, [SrvMsg.startReply r.2], false)

/-- Update of the first registry entry keyed by `sock`, storing `now` into
its `last_tick` (the `find` + `store` in the heartbeat branch). -/
def refreshLastTick : List (Nat × PeerInfo) → Nat → ℚ → List (Nat × PeerInfo)
  | [], _, _ => []
  | e :: rest, sock, now =>
    if e.1 == sock then (e.1, { e.2 with lastTick := now }) :: rest
    else e :: refreshLastTick rest sock now

/-- The `cmd_heartbeat` branch of `network_manager::read_loop`
(lines 275-285): under the registry lock, find the peer; if present, store
now into its `last_tick`; in either case write nothing, do not close, and
continue the loop. -/
def readLoopHeartbeatStep (s : ServerState) (sock : Nat) (now : ℚ) :
    ServerState × List SrvMsg × Bool :=
  ({ s with registry := refreshLastTick s.registry sock now }, [], false)

/-- Control-plane events of one server lifetime, as seen by the registry:
a START_PLAY command arriving on socket `sock` at time `now`, or a session
close (stream error, heartbeat timeout, disconnect). -/
inductive SrvEvent where
  | startPlay (sock : Nat) (now : ℚ) : SrvEvent
  | close (sock : Nat) : SrvEvent
deriving DecidableEq

/-- Run a list of control-plane events, collecting in order the ids returned
by the successful `add_playing_peer` calls (the ids assigned to admitted
peers).  A failed admission (duplicate START_PLAY) closes that session, as in
`read_loop`. -/
def runEvents : ServerState → List SrvEvent → ServerState × List Nat
  | s, [] => (s, [])
  | s, SrvEvent.startPlay sock now :: rest =>
    let r := addPlayingPeer s sock now
    if r.2 = 0 then runEvents (closeSession r.1 sock) rest
    else
      let q := runEvents r.1 rest
      (q.1, r.2 :: q.2)
  | s, SrvEvent.close sock :: rest => runEvents (closeSession s sock) rest

/-! ## Heartbeat loop timing (`network_manager::heartbeat_loop`, lines 290-336)

The loop arms a 3-second timer, waits, and on each wake compares
`steady_clock::now() - last_tick` against `HEARTBEAT_TIMEOUT`; on timeout it
closes the session, otherwise it writes `cmd_heartbeat` and repeats.  The
idealised timing model below takes the loop body to be instantaneous, so for
a peer admitted at time `t0` the wake instants are `t0 + 3·(k+1)`, `k ∈ ℕ`.
`lastTick : ℚ → ℚ` gives the value of the peer's atomic `last_tick` at each
instant. -/

/-- The `k`-th wake instant of the heartbeat loop of a peer admitted at `t0`. -/
def hbWake (t0 : ℚ) (k : ℕ) : ℚ := t0 + HEARTBEAT_INTERVAL * ((k : ℚ) + 1)

/-- The timeout test performed on each wake:
`now - last_tick > HEARTBEAT_TIMEOUT` closes the peer, otherwise the server
sends `cmd_heartbeat`. -/
def hbCheckClose (now lastTick : ℚ) : Bool :=
  if HEARTBEAT_TIMEOUT < now - lastTick then true else false

/-! ## Default address selection (`network_manager::select_default_address`,
lines 138-169)

An IPv4 address string is modelled by its 32-bit host-order value (what the
C++ obtains via `inet_pton` followed by `ntohl`); the parse is a bijection on
well-formed dotted quads, and every enumerated address is well-formed.  The
empty-string return value is modelled as `none`. -/

/-- The numeric value of the dotted quad `a.b.c.d`. -/
def ipv4Addr (a b c d : Nat) : Nat := ((a * 256 + b) * 256 + c) * 256 + d

/-- The `private_addr_list` constants of `is_private_address`:
`0x0a000000` (10.0.0.0), `0xac100000` (172.16.0.0), `0xc0a80000` (192.168.0.0). -/
def privateAddrList : List Nat := [0x0a000000, 0xac100000, 0xc0a80000]

/-- The C++ `is_private_address` lambda: for each entry of
`private_addr_list` it tests `(addr & private_addr) == private_addr`.
Note this is a bit-superset test, not a CIDR prefix test. -/
def is_private_address (addr : Nat) : Bool :=
  privateAddrList.any fun p => addr &&& p == p

/-- `network_manager::select_default_address`: empty list gives the empty
string; otherwise the first address passing `is_private_address`, else the
front of the list. -/
def select_default_address (addressList : List Nat) : Option Nat :=
  if addressList.isEmpty then none
  else
    match addressList.find? is_private_address with
    | some addr => some addr
    | none => addressList.head?

/-- Membership in `10.0.0.0/8 ∪ 172.16.0.0/12 ∪ 192.168.0.0/16`, the CIDR
test the specification describes (top 8/12/16 bits equal to the prefix). -/
def inPrivateCidrRange (addr : Nat) : Bool :=
  (addr / 2 ^ 24 == 10) || (addr / 2 ^ 20 == 0xac1) || (addr / 2 ^ 16 == 0xc0a8)

/-- The selection function as the specification words it (same shape as
`select_default_address` but with the CIDR membership test); kept for
comparison with the code's `is_private_address`. -/
def select_default_address_spec (addressList : List Nat) : Option Nat :=
  if addressList.isEmpty then none
  else
    match addressList.find? inPrivateCidrRange with
    | some addr => some addr
    | none => addressList.head?

/-! ## WebSocket gateway (`websocket_manager.cpp`) -/

/-- `websocket_manager::ws_session`: the WebSocket stream's open flag, the
bounded `audio_queue` (a FIFO of byte buffers), and the atomic `last_tick`. -/
structure WsSessionState where
  isOpen : Bool
  audioQueue : List (List Nat)
  lastTick : ℚ
deriving DecidableEq

/-- The queue-size bound hard-coded in `websocket_manager::broadcast_audio_data`
(`if (session->audio_queue.size() < 50)`). -/
def WS_QUEUE_LIMIT : Nat := 50

/-- The per-session body of the loop in
`websocket_manager::broadcast_audio_data`: if the session's stream is open
and its queue holds fewer than `WS_QUEUE_LIMIT` buffers, a copy of the chunk
is pushed at the back of the queue; otherwise the session is left alone (a
full queue silently drops the chunk for that session). -/
def wsEnqueueStep (data : List Nat) (sess : WsSessionState) : WsSessionState :=
  if sess.isOpen then
    if sess.audioQueue.length < WS_QUEUE_LIMIT then
      { sess with audioQueue := sess.audioQueue ++ [data] }
    else sess
  else sess

/-- `websocket_manager::broadcast_audio_data(data, count, block_align)`:
returns unchanged if the server is not running or `count == 0`; otherwise
applies `wsEnqueueStep` to every session under the sessions lock. -/
def wsBroadcastAudioData (isRunning : Bool) (sessions : List WsSessionState)
    (data : List Nat) : List WsSessionState :=
  if !isRunning || data.length == 0 then sessions
  else sessions.map (wsEnqueueStep data)

/-! ## Buffer pool (`buffer_pool.hpp`, quoted at `websocket_manager.cpp`
lines 414-469)

A buffer (`std::vector<uint8_t>`) is a `List Nat`.  Buffers handed out and
recycled by the pool always consist of zero bytes: the constructor
value-initialises them, and `return_buffer` does `clear()` followed by
`resize(_buffer_size)`, which zero-fills. -/

structure BufferPool where
  bufferSize : Nat
  maxPoolSize : Nat
  /-- The stack `_pool`; the head of the list is the top of the stack. -/
  pool : List (List Nat)
deriving DecidableEq

/-- The `buffer_pool` constructor: pre-allocate `initial_capacity` buffers of
`buffer_size` zero bytes each.  Note the constructor does not clamp
`initial_capacity` to `max_pool_size`. -/
def mkBufferPool (bufferSize initialCapacity maxPoolSize : Nat) : BufferPool :=
  { bufferSize := bufferSize, maxPoolSize := maxPoolSize,
    pool := List.replicate initialCapacity (List.replicate bufferSize 0) }

/-- `buffer_pool::acquire`: pop the top of the stack if non-empty, else
allocate a fresh zero-filled buffer of `_buffer_size` bytes. -/
def BufferPool.acquire (p : BufferPool) : BufferPool × List Nat :=
  match p.pool with
  | [] => (p, List.replicate p.bufferSize 0)
  | b :: rest => ({ p with pool := rest }, b)

/-- `buffer_pool::return_buffer` (the shared-ptr deleter): if the pool holds
fewer than `_max_pool_size` buffers, the returned buffer is cleared, resized
to `_buffer_size` (zero-filling it) and pushed; otherwise it is freed.  The
result is independent of the dropped buffer's contents. -/
def BufferPool.returnBuffer (p : BufferPool) (b : List Nat) : BufferPool :=
  if p.pool.length < p.maxPoolSize then
    { p with pool := List.replicate p.bufferSize 0 :: p.pool }
  else p

/-- Client-side operations on the pool: acquire a buffer, or drop the most
recently acquired still-held buffer (triggering `return_buffer`). -/
inductive PoolOp where
  | acq : PoolOp
  | rel : PoolOp
deriving DecidableEq

/-- Run a sequence of acquire/release operations, tracking the buffers
currently held by clients (a `rel` with nothing held is a no-op). -/
def runPoolOps : BufferPool → List (List Nat) → List PoolOp → BufferPool × List (List Nat)
  | p, held, [] => (p, held)
  | p, held, PoolOp.acq :: rest =>
    let r := p.acquire
    runPoolOps r.1 (r.2 :: held) rest
  | p, held, PoolOp.rel :: rest =>
    match held with
    | [] => runPoolOps p [] rest
    | b :: hs => runPoolOps (p.returnBuffer b) hs rest

/-! ## Helper lemmas about `segCap` and `segmentLoop` -/

theorem segCap_eq_mul (a : Nat) : segCap a = a * (MAX_UDP_PAYLOAD_SIZE / a) := by
  have h := Nat.div_add_mod MAX_UDP_PAYLOAD_SIZE a
  simp only [segCap]
  omega

theorem dvd_segCap (a : Nat) : a ∣ segCap a :=
  ⟨MAX_UDP_PAYLOAD_SIZE / a, segCap_eq_mul a⟩

theorem segCap_le (a : Nat) : segCap a ≤ MAX_UDP_PAYLOAD_SIZE :=
  Nat.sub_le _ _

theorem segCap_pos (a : Nat) (h0 : 0 < a) (hle : a ≤ MAX_UDP_PAYLOAD_SIZE) :
    0 < segCap a := by
  have hmod : MAX_UDP_PAYLOAD_SIZE % a < a := Nat.mod_lt _ h0
  simp only [segCap]
  omega

theorem segmentLoop_nil (cap fuel : Nat) : segmentLoop cap fuel [] = some [] := by
  cases fuel <;> rfl

/-- With capacity 0 and non-empty data, the loop makes no progress: no fuel
produces a result (the C++ loop runs forever). -/
theorem segmentLoop_zero_cap :
    ∀ (fuel : Nat) (d : Nat) (ds : List Nat), segmentLoop 0 fuel (d :: ds) = none
  | 0, _, _ => rfl
  | fuel + 1, d, ds => by
    have ih := segmentLoop_zero_cap fuel d ds
    simp [segmentLoop, ih]

/-- Soundness of the segmentation loop for positive capacity: fuel
`data.length` suffices, the segments concatenate back to the data, there are
exactly `⌈data.length / cap⌉` of them, and each is at most `cap` bytes long. -/
theorem segmentLoop_sound (cap : Nat) (hcap : 0 < cap) :
    ∀ (fuel : Nat) (data : List Nat), data.length ≤ fuel →
      ∃ segs, segmentLoop cap fuel data = some segs ∧
        segs.flatten = data ∧
        segs.length = (data.length + cap - 1) / cap ∧
        (∀ seg ∈ segs, seg.length ≤ cap) := by
  intro fuel
  induction fuel with
  | zero =>
    intro data hlen
    match data with
    | [] =>
      refine ⟨[], rfl, rfl, ?_, by simp⟩
      simp only [List.length_nil, Nat.zero_add]
      exact (Nat.div_eq_of_lt (by omega)).symm
    | d :: ds => simp at hlen
  | succ fuel ih =>
    intro data hlen
    match data with
    | [] =>
      refine ⟨[], segmentLoop_nil _ _, rfl, ?_, by simp⟩
      simp only [List.length_nil, Nat.zero_add]
      exact (Nat.div_eq_of_lt (by omega)).symm
    | d :: ds =>
      have hn1 : 1 ≤ (d :: ds).length := by simp
      have hreal1 : 1 ≤ min (d :: ds).length cap := le_min hn1 hcap
      have hdrop : ((d :: ds).drop (min (d :: ds).length cap)).length
          = (d :: ds).length - min (d :: ds).length cap := by
        simp
      have hdroplen : ((d :: ds).drop (min (d :: ds).length cap)).length ≤ fuel := by
        rw [hdrop]
        simp only [List.length_cons] at hlen ⊢
        omega
      obtain ⟨rest, hrest, hjoin, hcount, hbound⟩ :=
        ih ((d :: ds).drop (min (d :: ds).length cap)) hdroplen
      refine ⟨(d :: ds).take (min (d :: ds).length cap) :: rest, ?_, ?_, ?_, ?_⟩
      · simp only [segmentLoop, hrest, Option.map_some']
      · show (d :: ds).take (min (d :: ds).length cap) ++ rest.flatten = d :: ds
        rw [hjoin, List.take_append_drop]
      · rw [List.length_cons, hcount, hdrop]
        rcases Nat.le_total (d :: ds).length cap with hle | hle
        · rw [min_eq_left hle]
          have e0 : (d :: ds).length - (d :: ds).length + cap - 1 = cap - 1 := by omega
          rw [e0, Nat.div_eq_of_lt (show cap - 1 < cap by omega),
            Nat.div_eq_of_lt_le (show 1 * cap ≤ (d :: ds).length + cap - 1 by omega)
              (show (d :: ds).length + cap - 1 < (1 + 1) * cap by omega)]
        · rw [min_eq_right hle]
          have e1 : (d :: ds).length - cap + cap - 1 = (d :: ds).length - 1 := by omega
          have e2 : (d :: ds).length + cap - 1 = ((d :: ds).length - 1) + cap := by omega
          rw [e1, e2, Nat.add_div_right _ hcap]
      · intro seg hseg
        rcases List.mem_cons.mp hseg with hseg | hseg
        · subst hseg
          simp only [List.length_take]
          omega
        · exact hbound seg hseg

/-- Every segment the loop produces has a length divisible by `a`, provided
`a` divides both the capacity and the total data length. -/
theorem segmentLoop_aligned (cap a : Nat) (ha : a ∣ cap) :
    ∀ (fuel : Nat) (data : List Nat) (segs : List (List Nat)),
      a ∣ data.length → segmentLoop cap fuel data = some segs →
      ∀ seg ∈ segs, a ∣ seg.length := by
  intro fuel
  induction fuel with
  | zero =>
    intro data segs hdvd hrun
    match data with
    | [] =>
      cases hrun
      simp
    | d :: ds => cases hrun
  | succ fuel ih =>
    intro data segs hdvd hrun
    match data with
    | [] =>
      cases hrun
      simp
    | d :: ds =>
      simp only [segmentLoop] at hrun
      rw [Option.map_eq_some'] at hrun
      obtain ⟨rest, hrest, hsegs⟩ := hrun
      subst hsegs
      have hreal : a ∣ min (d :: ds).length cap := by
        rcases Nat.le_total (d :: ds).length cap with h | h
        · rw [min_eq_left h]; exact hdvd
        · rw [min_eq_right h]; exact ha
      have hdvd2 : a ∣ ((d :: ds).drop (min (d :: ds).length cap)).length := by
        rw [List.length_drop]
        exact Nat.dvd_sub' hdvd hreal
      intro seg hseg
      rcases List.mem_cons.mp hseg with hseg | hseg
      · subst hseg
        rw [List.length_take, min_eq_left (min_le_left _ _)]
        exact hreal
      · exact ih _ rest hdvd2 hrest seg hseg

/-- Claim C1 (amended): for `broadcast_audio_data(data, len, align)` with
`align > 0` and `len` a multiple of `align` (PCM chunks are whole sample
frames), every UDP segment produced by the fan-out has a length divisible by
`align` and at most `MAX_UDP_PAYLOAD_SIZE = 1444` bytes.  The amendment adds
the hypothesis `align ∣ len`, which the original claim lacked: without it the
final segment is `len mod seg_cap` bytes, not necessarily a multiple of
`align` (see `broadcast_segments_aligned_cex`). -/
theorem broadcast_segments_aligned (blockAlign : Nat) (data : List Nat)
    (segs : List (List Nat)) (ha : 0 < blockAlign) (hdvd : blockAlign ∣ data.length)
    (hrun : broadcastSegments blockAlign data = some segs) :
    ∀ seg ∈ segs, blockAlign ∣ seg.length ∧ seg.length ≤ MAX_UDP_PAYLOAD_SIZE := by
  have hrun2 : segmentLoop (segCap blockAlign) data.length data = some segs := hrun
  intro seg hseg
  refine ⟨segmentLoop_aligned (segCap blockAlign) blockAlign (dvd_segCap blockAlign)
    data.length data segs hdvd hrun2 seg hseg, ?_⟩
  by_cases hcap : 0 < segCap blockAlign
  · obtain ⟨segs2, hr3, _, _, hbound⟩ :=
      segmentLoop_sound _ hcap data.length data le_rfl
    have hs : segs2 = segs := Option.some.inj (hr3.symm.trans hrun2)
    subst hs
    exact le_trans (hbound seg hseg) (segCap_le _)
  · have hc0 : segCap blockAlign = 0 := by omega
    cases data with
    | nil =>
      have hs : [] = segs := Option.some.inj hrun2
      subst hs
      cases hseg
    | cons d ds =>
      rw [hc0, segmentLoop_zero_cap] at hrun2
      cases hrun2

/-- Claim C1 counterexample: calling `broadcast_audio_data` with a 5-byte
chunk and `block_align = 4` yields a single 5-byte segment, whose length is
not divisible by 4.  The claim as stated (for every `len > 0`, `align > 0`)
is therefore false; it only holds when `align` divides `len`. -/
theorem broadcast_segments_aligned_cex :
    ¬ (∀ segs, broadcastSegments 4 [1, 2, 3, 4, 5] = some segs →
        ∀ seg ∈ segs, 4 ∣ seg.length ∧ seg.length ≤ MAX_UDP_PAYLOAD_SIZE) := by
  intro h
  have h5 := h [[1, 2, 3, 4, 5]] rfl [1, 2, 3, 4, 5] (by simp)
  have hd : (4 : Nat) ∣ 5 := by simpa using h5.1
  omega

/-- Witness for `broadcast_segments_aligned`: an 8-byte chunk with
`block_align = 4` produces the single segment `[1,...,8]`, 8 bytes long,
divisible by 4 and below the UDP payload bound. -/
theorem broadcast_segments_aligned_witness :
    (4 : Nat) ∣ ([1, 2, 3, 4, 5, 6, 7, 8] : List Nat).length ∧
      ([1, 2, 3, 4, 5, 6, 7, 8] : List Nat).length ≤ MAX_UDP_PAYLOAD_SIZE :=
  broadcast_segments_aligned 4 [1, 2, 3, 4, 5, 6, 7, 8] [[1, 2, 3, 4, 5, 6, 7, 8]]
    (by decide) (by decide) (by decide) [1, 2, 3, 4, 5, 6, 7, 8] (by simp)

/-- Claim C2 (amended): for `broadcast_audio_data(data, len, align)` with
`len > 0`, `align > 0` and `align ≤ 1444` (so that `seg_cap > 0`), the
fan-out produces exactly `⌈len / seg_cap⌉` segments, and concatenating them
in production order reproduces the `len` input bytes.  The amendment adds
`align ≤ 1444`: for larger `align` the capacity `seg_cap` is 0 and the C++
segmentation loop never terminates (see `broadcast_segments_cover_cex` and
`segmentLoop_zero_cap`). -/
theorem broadcast_segments_cover (blockAlign : Nat) (data : List Nat)
    (ha : 0 < blockAlign) (hle : blockAlign ≤ MAX_UDP_PAYLOAD_SIZE)
    (hlen : 0 < data.length) :
    ∃ segs, broadcastSegments blockAlign data = some segs ∧
      segs.length = (data.length + segCap blockAlign - 1) / segCap blockAlign ∧
      segs.flatten = data := by
  obtain ⟨segs, hrun, hflat, hcnt, _⟩ :=
    segmentLoop_sound (segCap blockAlign) (segCap_pos blockAlign ha hle)
      data.length data le_rfl
  exact ⟨segs, hrun, hcnt, hflat⟩

/-- Claim C2 counterexample: with `block_align = 1445 > 1444` the capacity
`seg_cap = 1444 - (1444 mod 1445) = 0`, the loop in `broadcast_audio_data`
never advances `begin_pos`, and no list of segments is ever produced (the
model returns `none` for every fuel, `segmentLoop_zero_cap`); in particular
no segment list concatenates back to the 1-byte input. -/
theorem broadcast_segments_cover_cex :
    ¬ ∃ segs, broadcastSegments 1445 [7] = some segs ∧
        segs.length = (([7] : List Nat).length + segCap 1445 - 1) / segCap 1445 ∧
        segs.flatten = [7] := by
  rintro ⟨segs, hrun, -, -⟩
  rw [show broadcastSegments 1445 [7] = none from rfl] at hrun
  cases hrun

/-- Witness for `broadcast_segments_cover` at a 3-byte chunk with
`block_align = 3`. -/
theorem broadcast_segments_cover_witness :
    ∃ segs, broadcastSegments 3 [1, 2, 3] = some segs ∧
      segs.length = (([1, 2, 3] : List Nat).length + segCap 3 - 1) / segCap 3 ∧
      segs.flatten = [1, 2, 3] :=
  broadcast_segments_cover 3 [1, 2, 3] (by decide) (by decide) (by decide)

/-- Claim C3 (amended): on every broadcast, the snapshot of UDP destinations
contains exactly the stored `udp_peer` endpoints whose address family equals
the UDP server socket's family.  Whether a registration datagram was ever
received is not consulted: a never-registered peer holds the
default-constructed IPv4 endpoint `0.0.0.0:0`, which passes the filter on an
IPv4 server (see `dispatch_unregistered_peer_cex`) and is excluded only on
an IPv6 server. -/
theorem dispatch_family_filter (isServerV4 : Bool) (registry : List (Nat × PeerInfo))
    (ep : Endpoint) :
    ep ∈ dispatchEndpoints isServerV4 registry ↔
      (∃ e ∈ registry, e.2.udpPeer = ep) ∧ ep.isV4 = isServerV4 := by
  have hcond : ∀ ep2 : Endpoint,
      ((isServerV4 && ep2.isV4) || (!isServerV4 && !ep2.isV4)) = true ↔
        ep2.isV4 = isServerV4 := by
    intro ep2
    cases isServerV4 <;> cases h : ep2.isV4 <;> simp [h]
  simp only [dispatchEndpoints, List.mem_filterMap]
  constructor
  · rintro ⟨e, he, hf⟩
    split_ifs at hf with hc
    have hep : e.2.udpPeer = ep := Option.some.inj hf
    exact ⟨⟨e, he, hep⟩, by rw [← hep]; exact (hcond _).mp hc⟩
  · rintro ⟨⟨e, he, hep⟩, hfam⟩
    refine ⟨e, he, ?_⟩
    rw [if_pos ((hcond e.2.udpPeer).mpr (by rw [hep]; exact hfam)), hep]

/-- Claim C3 counterexample: an IPv4 server with a single admitted peer that
never sent a registration datagram.  The peer's `udp_peer` is the
default-constructed endpoint `0.0.0.0:0`, which is IPv4, so the broadcast
snapshot contains it and `async_send_to` is issued for it — contradicting
the claim that a datagram is sent only to peers whose endpoint was set by a
prior registration. -/
theorem dispatch_unregistered_peer_cex :
    dispatchEndpoints true [(1, freshPeerInfo 1 0)] = [defaultEndpoint] ∧
      ([defaultEndpoint] : List Endpoint) ≠ [] :=
  ⟨rfl, by simp⟩

/-- Witness for `dispatch_family_filter`: on an IPv4 server the default
endpoint of a fresh (unregistered) peer is in the dispatch snapshot. -/
theorem dispatch_family_filter_witness :
    defaultEndpoint ∈ dispatchEndpoints true [(1, freshPeerInfo 1 0)] ↔
      (∃ e ∈ [(1, freshPeerInfo 1 0)], e.2.udpPeer = defaultEndpoint) ∧
        defaultEndpoint.isV4 = true :=
  dispatch_family_filter true [(1, freshPeerInfo 1 0)] defaultEndpoint

/-- The ids collected along any run are a contiguous range starting just
above the initial counter, and the counter advances by their number. -/
theorem runEvents_ids_range (evs : List SrvEvent) :
    ∀ s : ServerState, ∃ n, (runEvents s evs).2 = List.range' (s.counter + 1) n ∧
      (runEvents s evs).1.counter = s.counter + n := by
  induction evs with
  | nil => exact fun s => ⟨0, rfl, rfl⟩
  | cons e rest ih =>
    intro s
    cases e with
    | startPlay sock now =>
      by_cases hdup : s.registry.any (fun e2 => e2.1 == sock) = true
      · have hadd : addPlayingPeer s sock now = (s, 0) := by
          simp [addPlayingPeer, hdup]
        obtain ⟨n, hids, hcnt⟩ := ih (closeSession s sock)
        refine ⟨n, ?_, ?_⟩
        · simpa [runEvents, hadd] using hids
        · simpa [runEvents, hadd] using hcnt
      · have hadd : addPlayingPeer s sock now
            = ({ registry := s.registry ++ [(sock, freshPeerInfo (s.counter + 1) now)],
                 counter := s.counter + 1 }, s.counter + 1) := by
          simp [addPlayingPeer, hdup]
        obtain ⟨n, hids, hcnt⟩ :=
          ih { registry := s.registry ++ [(sock, freshPeerInfo (s.counter + 1) now)],
               counter := s.counter + 1 }
        refine ⟨n + 1, ?_, ?_⟩
        · rw [List.range'_succ]
          simpa [runEvents, hadd] using hids
        · have : s.counter + 1 + n = s.counter + (n + 1) := by omega
          rw [← this]
          simpa [runEvents, hadd] using hcnt
    | close sock =>
      obtain ⟨n, hids, hcnt⟩ := ih (closeSession s sock)
      exact ⟨n, by simpa [runEvents] using hids, by simpa [runEvents] using hcnt⟩

/-- Claim C4: across one server lifetime, the ids assigned to peers admitted
via START_PLAY are pairwise distinct and strictly increasing in admission
order, every assigned id is positive (0, the `add_playing_peer` failure
value, is never assigned), and the first admitted peer gets id 1. -/
theorem peer_ids_unique_monotonic (evs : List SrvEvent) :
    (runEvents initialServerState evs).2.Pairwise (· < ·) ∧
      (∀ i ∈ (runEvents initialServerState evs).2, 0 < i) ∧
      ((runEvents initialServerState evs).2 ≠ [] →
        (runEvents initialServerState evs).2.head? = some 1) := by
  obtain ⟨n, hids, -⟩ := runEvents_ids_range evs initialServerState
  rw [hids]
  refine ⟨List.pairwise_lt_range' _ _, ?_, ?_⟩
  · intro i hi
    have := List.mem_range'_1.mp hi
    omega
  · intro hne
    cases n with
    | zero => exact absurd rfl hne
    | succ m => rw [List.range'_succ]; rfl

/-- Witness for `peer_ids_unique_monotonic`: a lifetime with three successful
admissions, one duplicate START_PLAY (which allocates no id) and one
disconnect; the collected ids are exactly `[1, 2, 3]`. -/
theorem peer_ids_unique_monotonic_witness :
    ((runEvents initialServerState
        [SrvEvent.startPlay 5 0, SrvEvent.startPlay 6 0, SrvEvent.startPlay 5 1,
          SrvEvent.close 6, SrvEvent.startPlay 7 2]).2.Pairwise (· < ·) ∧
      (∀ i ∈ (runEvents initialServerState
        [SrvEvent.startPlay 5 0, SrvEvent.startPlay 6 0, SrvEvent.startPlay 5 1,
          SrvEvent.close 6, SrvEvent.startPlay 7 2]).2, 0 < i) ∧
      ((runEvents initialServerState
        [SrvEvent.startPlay 5 0, SrvEvent.startPlay 6 0, SrvEvent.startPlay 5 1,
          SrvEvent.close 6, SrvEvent.startPlay 7 2]).2 ≠ [] →
        (runEvents initialServerState
          [SrvEvent.startPlay 5 0, SrvEvent.startPlay 6 0, SrvEvent.startPlay 5 1,
            SrvEvent.close 6, SrvEvent.startPlay 7 2]).2.head? = some 1)) ∧
      (runEvents initialServerState
        [SrvEvent.startPlay 5 0, SrvEvent.startPlay 6 0, SrvEvent.startPlay 5 1,
          SrvEvent.close 6, SrvEvent.startPlay 7 2]).2 = [1, 2, 3] :=
  ⟨peer_ids_unique_monotonic _, by decide⟩

/-- Claim C8 (amended): when START_PLAY arrives on a stream already in the
registry, the server sends no reply at all (it logs the error), closes that
peer only — the stream's entry is removed from the registry and the socket
shut down — every other peer's entry is untouched, and the process-wide id
counter is not advanced.  The amendment replaces the claim's "replies with
an error to that listener": no error message exists in the wire protocol and
the code writes nothing in this branch
(see `duplicate_start_play_no_reply_cex`). -/
theorem duplicate_start_play_effect (s : ServerState) (sock : Nat) (now : ℚ)
    (h : s.registry.any (fun e => e.1 == sock) = true) :
    (handleStartPlay s sock now).2.1 = [] ∧
      (handleStartPlay s sock now).2.2 = true ∧
      (handleStartPlay s sock now).1.counter = s.counter ∧
      (∀ e ∈ s.registry, e.1 ≠ sock → e ∈ (handleStartPlay s sock now).1.registry) ∧
      (∀ e ∈ (handleStartPlay s sock now).1.registry, e ∈ s.registry ∧ e.1 ≠ sock) := by
  have hstep : handleStartPlay s sock now = (closeSession s sock, [], true) := by
    simp [handleStartPlay, addPlayingPeer, h]
  rw [hstep]
  refine ⟨rfl, rfl, rfl, ?_, ?_⟩
  · intro e he hne
    simp only [closeSession, removePlayingPeer]
    exact List.mem_filter.mpr ⟨he, by simp [hne]⟩
  · intro e he
    simp only [closeSession, removePlayingPeer] at he
    have h2 := List.mem_filter.mp he
    exact ⟨h2.1, by simpa using h2.2⟩

/-- Claim C8 counterexample: a registry holding socket 7; a second START_PLAY
on socket 7 produces an empty reply list (nothing is written to the
listener, contradicting "replies with an error to that listener") and closes
the connection. -/
theorem duplicate_start_play_no_reply_cex :
    (handleStartPlay { registry := [(7, freshPeerInfo 1 0)], counter := 1 } 7 2).2.1 = [] ∧
      (handleStartPlay { registry := [(7, freshPeerInfo 1 0)], counter := 1 } 7 2).2.2 = true :=
  ⟨rfl, rfl⟩

/-- Witness for `duplicate_start_play_effect` on the concrete one-peer
registry. -/
theorem duplicate_start_play_effect_witness :
    (handleStartPlay { registry := [(7, freshPeerInfo 1 0)], counter := 1 } 7 2).2.1 = [] ∧
      (handleStartPlay { registry := [(7, freshPeerInfo 1 0)], counter := 1 } 7 2).2.2 = true ∧
      (handleStartPlay { registry := [(7, freshPeerInfo 1 0)], counter := 1 } 7 2).1.counter = 1 ∧
      (∀ e ∈ [(7, freshPeerInfo 1 0)], e.1 ≠ 7 →
        e ∈ (handleStartPlay { registry := [(7, freshPeerInfo 1 0)], counter := 1 } 7 2).1.registry) ∧
      (∀ e ∈ (handleStartPlay { registry := [(7, freshPeerInfo 1 0)], counter := 1 } 7 2).1.registry,
        e ∈ [(7, freshPeerInfo 1 0)] ∧ e.1 ≠ 7) :=
  duplicate_start_play_effect { registry := [(7, freshPeerInfo 1 0)], counter := 1 } 7 2
    (by decide)

/-- `refreshLastTick` leaves the list unchanged when no entry matches. -/
theorem refreshLastTick_not_mem (l : List (Nat × PeerInfo)) (sock : Nat) (now : ℚ)
    (h : ∀ e ∈ l, e.1 ≠ sock) : refreshLastTick l sock now = l := by
  induction l with
  | nil => rfl
  | cons e rest ih =>
    have he : e.1 ≠ sock := h e (List.mem_cons_self e rest)
    simp only [refreshLastTick]
    rw [if_neg (by simpa using he),
      ih (fun e2 he2 => h e2 (List.mem_cons_of_mem e he2))]

/-- Entries keyed by other sockets survive `refreshLastTick` untouched. -/
theorem refreshLastTick_mem_ne (l : List (Nat × PeerInfo)) (sock : Nat) (now : ℚ) :
    ∀ e ∈ l, e.1 ≠ sock → e ∈ refreshLastTick l sock now := by
  induction l with
  | nil => intro e he; cases he
  | cons e2 rest ih =>
    intro e he hne
    simp only [refreshLastTick]
    by_cases hc : (e2.1 == sock) = true
    · rw [if_pos hc]
      rcases List.mem_cons.mp he with h1 | h1
      · exact absurd (by simpa using hc) (h1 ▸ hne)
      · exact List.mem_cons_of_mem _ h1
    · rw [if_neg hc]
      rcases List.mem_cons.mp he with h1 | h1
      · subst h1; exact List.mem_cons_self _ _
      · exact List.mem_cons_of_mem _ (ih e h1 hne)

/-- `refreshLastTick` changes at most `last_tick` fields: keys, ids and UDP
endpoints are preserved entry-wise. -/
theorem refreshLastTick_skeleton (l : List (Nat × PeerInfo)) (sock : Nat) (now : ℚ) :
    (refreshLastTick l sock now).map (fun e => (e.1, e.2.id, e.2.udpPeer))
      = l.map (fun e => (e.1, e.2.id, e.2.udpPeer)) := by
  induction l with
  | nil => rfl
  | cons e rest ih =>
    simp only [refreshLastTick]
    by_cases hc : (e.1 == sock) = true
    · rw [if_pos hc]
      simp only [List.map_cons]
    · rw [if_neg hc]
      simp only [List.map_cons, ih]

/-- Claim C10: a HEARTBEAT command on a connected stream writes nothing,
never closes the connection, and leaves the id counter untouched; if the
stream is not in the registry the whole server state is unchanged; entries
of other sockets are untouched, and in every case the registry's keys, ids
and UDP endpoints are preserved (only the matching peer's `last_tick` is
refreshed). -/
theorem heartbeat_cmd_frame_effect (s : ServerState) (sock : Nat) (now : ℚ) :
    (readLoopHeartbeatStep s sock now).2.1 = [] ∧
      (readLoopHeartbeatStep s sock now).2.2 = false ∧
      (readLoopHeartbeatStep s sock now).1.counter = s.counter ∧
      ((∀ e ∈ s.registry, e.1 ≠ sock) → (readLoopHeartbeatStep s sock now).1 = s) ∧
      (∀ e ∈ s.registry, e.1 ≠ sock → e ∈ (readLoopHeartbeatStep s sock now).1.registry) ∧
      ((readLoopHeartbeatStep s sock now).1.registry.map (fun e => (e.1, e.2.id, e.2.udpPeer))
        = s.registry.map (fun e => (e.1, e.2.id, e.2.udpPeer))) := by
  refine ⟨rfl, rfl, rfl, ?_, ?_, refreshLastTick_skeleton s.registry sock now⟩
  · intro h
    show ({ s with registry := refreshLastTick s.registry sock now } : ServerState) = s
    rw [refreshLastTick_not_mem s.registry sock now h]
  · intro e he hne
    exact refreshLastTick_mem_ne s.registry sock now e he hne

/-- Claim C5: in the idealised timing model the heartbeat loop of a peer
admitted at `t0` wakes at `t0 + 3·(k+1)` and closes the peer exactly when
`now - last_tick > 5`.  Consequently (first conjunct) a peer whose
`last_tick` is at most 4.9 s stale at every instant is never closed for
timeout, and (second conjunct) a peer whose `last_tick` stays at `r` forever
(silent from `r` on) is detected at a wake that lies within 3 s after the
deadline `r + 5`. -/
theorem heartbeat_timeout_discipline (t0 : ℚ) (lastTick : ℚ → ℚ) :
    ((∀ t, t0 ≤ t → t - lastTick t ≤ 49 / 10) →
      ∀ k : ℕ, hbCheckClose (hbWake t0 k) (lastTick (hbWake t0 k)) = false) ∧
    (∀ r, t0 ≤ r → (∀ t, r ≤ t → lastTick t = r) →
      ∃ k : ℕ, hbWake t0 k ≤ r + HEARTBEAT_TIMEOUT + HEARTBEAT_INTERVAL ∧
        r + HEARTBEAT_TIMEOUT < hbWake t0 k ∧
        hbCheckClose (hbWake t0 k) (lastTick (hbWake t0 k)) = true) := by
  constructor
  · intro hfresh k
    have hk : (0 : ℚ) ≤ (k : ℚ) := Nat.cast_nonneg k
    have hw : t0 ≤ hbWake t0 k := by
      simp only [hbWake, HEARTBEAT_INTERVAL]
      nlinarith
    have hstale := hfresh (hbWake t0 k) hw
    simp only [hbCheckClose, HEARTBEAT_TIMEOUT]
    rw [if_neg (by linarith)]
  · intro r hr hsil
    have h5 : (5 : ℚ) ≤ r + 5 - t0 := by linarith
    have hnn : (0 : ℚ) ≤ (r + 5 - t0) / 3 := by
      apply div_nonneg <;> linarith
    have hfl : ((Nat.floor ((r + 5 - t0) / 3) : ℚ)) ≤ (r + 5 - t0) / 3 :=
      Nat.floor_le hnn
    have hlt : (r + 5 - t0) / 3 < (Nat.floor ((r + 5 - t0) / 3) : ℚ) + 1 :=
      Nat.lt_floor_add_one _
    have hwake : hbWake t0 (Nat.floor ((r + 5 - t0) / 3))
        = t0 + 3 * ((Nat.floor ((r + 5 - t0) / 3) : ℚ) + 1) := by
      simp only [hbWake, HEARTBEAT_INTERVAL]
    have hupper : hbWake t0 (Nat.floor ((r + 5 - t0) / 3)) ≤ r + 5 + 3 := by
      rw [hwake]
      linarith
    have hlower : r + 5 < hbWake t0 (Nat.floor ((r + 5 - t0) / 3)) := by
      rw [hwake]
      linarith
    refine ⟨Nat.floor ((r + 5 - t0) / 3), ?_, ?_, ?_⟩
    · simpa only [HEARTBEAT_TIMEOUT, HEARTBEAT_INTERVAL] using hupper
    · simpa only [HEARTBEAT_TIMEOUT] using hlower
    · have hrw : r ≤ hbWake t0 (Nat.floor ((r + 5 - t0) / 3)) := by linarith
      rw [hsil _ hrw]
      simp only [hbCheckClose, HEARTBEAT_TIMEOUT]
      rw [if_pos (by linarith)]

/-- Witness for `heartbeat_timeout_discipline`: a peer refreshed at every
instant (`lastTick t = t`) never trips the timeout test; a peer whose
`lastTick` is stuck at 0 is caught at a wake in `(5, 8]`. -/
theorem heartbeat_timeout_discipline_witness :
    (∀ k : ℕ, hbCheckClose (hbWake 0 k) (hbWake 0 k) = false) ∧
      (∃ k : ℕ, hbWake 0 k ≤ 0 + HEARTBEAT_TIMEOUT + HEARTBEAT_INTERVAL ∧
        0 + HEARTBEAT_TIMEOUT < hbWake 0 k ∧
        hbCheckClose (hbWake 0 k) 0 = true) :=
  ⟨(heartbeat_timeout_discipline 0 (fun t => t)).1 (fun t _ => by norm_num),
    (heartbeat_timeout_discipline 0 (fun _ => 0)).2 0 le_rfl (fun _ _ => rfl)⟩

/-- Claim C6 (code bug): on the list `["8.8.8.8", "11.0.0.1"]` the code
returns `"11.0.0.1"` while the specified selection (first address inside
`10.0.0.0/8 ∪ 172.16.0.0/12 ∪ 192.168.0.0/16`, else the first address)
returns `"8.8.8.8"`.  The cause: `is_private_address` tests
`(addr & private_addr) == private_addr`, a bit-superset test that accepts
addresses outside the three private ranges (`11.0.0.1 & 0x0a000000 ==
0x0a000000` although `11.0.0.1 ∉ 10.0.0.0/8`); a CIDR membership test was
clearly intended. -/
theorem select_default_address_divergence :
    select_default_address [ipv4Addr 8 8 8 8, ipv4Addr 11 0 0 1]
        = some (ipv4Addr 11 0 0 1) ∧
      select_default_address_spec [ipv4Addr 8 8 8 8, ipv4Addr 11 0 0 1]
        = some (ipv4Addr 8 8 8 8) ∧
      is_private_address (ipv4Addr 11 0 0 1) = true ∧
      inPrivateCidrRange (ipv4Addr 11 0 0 1) = false := by
  decide

/-- Claim C7: when the gateway is running and `count > 0`, broadcasting
touches every session exactly once, in place: an open session with queue
occupancy below 50 gets the chunk appended; an open session at or above 50
is left unchanged (the chunk is dropped for that session only); a closed
session is untouched; and a queue bounded by 50 before the call is still
bounded by 50 after it. -/
theorem ws_broadcast_backpressure (sessions : List WsSessionState) (data : List Nat)
    (hd : 0 < data.length) :
    (wsBroadcastAudioData true sessions data).length = sessions.length ∧
      ∀ i sess, sessions.get? i = some sess →
        ∃ sess2, (wsBroadcastAudioData true sessions data).get? i = some sess2 ∧
          (sess.isOpen = true → sess.audioQueue.length < WS_QUEUE_LIMIT →
            sess2.audioQueue = sess.audioQueue ++ [data]) ∧
          (sess.isOpen = true → WS_QUEUE_LIMIT ≤ sess.audioQueue.length → sess2 = sess) ∧
          (sess.isOpen = false → sess2 = sess) ∧
          (sess.audioQueue.length ≤ WS_QUEUE_LIMIT →
            sess2.audioQueue.length ≤ WS_QUEUE_LIMIT) := by
  have hne : (data.length == 0) = false := by
    simp only [beq_eq_false_iff_ne]
    omega
  have hmap : wsBroadcastAudioData true sessions data
      = sessions.map (wsEnqueueStep data) := by
    simp [wsBroadcastAudioData, hne]
  constructor
  · rw [hmap, List.length_map]
  · intro i sess hget
    refine ⟨wsEnqueueStep data sess, ?_, ?_, ?_, ?_, ?_⟩
    · rw [hmap, List.get?_map, hget]
      rfl
    · intro h1 h2
      simp [wsEnqueueStep, h1, h2]
    · intro h1 h2
      simp [wsEnqueueStep, h1, Nat.not_lt.mpr h2]
    · intro h1
      simp [wsEnqueueStep, h1]
    · intro hb
      by_cases h1 : sess.isOpen = true
      · by_cases h2 : sess.audioQueue.length < WS_QUEUE_LIMIT
        · simp only [wsEnqueueStep, h1, if_true, if_pos h2, List.length_append,
            List.length_cons, List.length_nil]
          simp only [WS_QUEUE_LIMIT] at h2 ⊢
          omega
        · simpa [wsEnqueueStep, h1, h2] using hb
      · simpa [wsEnqueueStep, h1] using hb

/-- Witness for `ws_broadcast_backpressure`: three sessions — open and
empty, open and saturated at 50, and closed — receiving a 1-byte chunk. -/
theorem ws_broadcast_backpressure_witness :
    (wsBroadcastAudioData true
        [⟨true, [], 0⟩, ⟨true, List.replicate 50 [], 0⟩, ⟨false, [], 0⟩] [9]).length
      = ([⟨true, [], 0⟩, ⟨true, List.replicate 50 [], 0⟩, ⟨false, [], 0⟩]
          : List WsSessionState).length ∧
      ∀ i sess,
        ([⟨true, [], 0⟩, ⟨true, List.replicate 50 [], 0⟩, ⟨false, [], 0⟩]
          : List WsSessionState).get? i = some sess →
        ∃ sess2, (wsBroadcastAudioData true
            [⟨true, [], 0⟩, ⟨true, List.replicate 50 [], 0⟩, ⟨false, [], 0⟩] [9]).get? i
            = some sess2 ∧
          (sess.isOpen = true → sess.audioQueue.length < WS_QUEUE_LIMIT →
            sess2.audioQueue = sess.audioQueue ++ [[9]]) ∧
          (sess.isOpen = true → WS_QUEUE_LIMIT ≤ sess.audioQueue.length → sess2 = sess) ∧
          (sess.isOpen = false → sess2 = sess) ∧
          (sess.audioQueue.length ≤ WS_QUEUE_LIMIT →
            sess2.audioQueue.length ≤ WS_QUEUE_LIMIT) :=
  ws_broadcast_backpressure
    [⟨true, [], 0⟩, ⟨true, List.replicate 50 [], 0⟩, ⟨false, [], 0⟩] [9] (by decide)

/-- The pool's invariant along any operation sequence: the configuration
fields never change, the stack never exceeds `max_pool_size` (given it
started within the bound), and every pooled buffer has exactly
`buffer_size` bytes. -/
theorem runPoolOps_inv (ops : List PoolOp) :
    ∀ (p : BufferPool) (held : List (List Nat)),
      p.pool.length ≤ p.maxPoolSize → (∀ b ∈ p.pool, b.length = p.bufferSize) →
      (runPoolOps p held ops).1.bufferSize = p.bufferSize ∧
        (runPoolOps p held ops).1.maxPoolSize = p.maxPoolSize ∧
        (runPoolOps p held ops).1.pool.length ≤ p.maxPoolSize ∧
        (∀ b ∈ (runPoolOps p held ops).1.pool, b.length = p.bufferSize) := by
  induction ops with
  | nil => exact fun p held h1 h2 => ⟨rfl, rfl, h1, h2⟩
  | cons op rest ih =>
    intro p held h1 h2
    cases op with
    | acq =>
      rcases hp : p.pool with _ | ⟨b, bs⟩
      · have hacq : p.acquire = (p, List.replicate p.bufferSize 0) := by
          simp [BufferPool.acquire, hp]
        simp only [runPoolOps, hacq]
        exact ih p _ h1 h2
      · have hacq : p.acquire = ({ p with pool := bs }, b) := by
          simp [BufferPool.acquire, hp]
        simp only [runPoolOps, hacq]
        have h1b : bs.length ≤ p.maxPoolSize := by
          have := h1
          rw [hp] at this
          simp only [List.length_cons] at this
          omega
        have h2b : ∀ b2 ∈ bs, b2.length = p.bufferSize := fun b2 hb =>
          h2 b2 (by rw [hp]; exact List.mem_cons_of_mem _ hb)
        exact ih { p with pool := bs } _ h1b h2b
    | rel =>
      rcases held with _ | ⟨b, hs⟩
      · simp only [runPoolOps]
        exact ih p [] h1 h2
      · simp only [runPoolOps]
        by_cases hlt : p.pool.length < p.maxPoolSize
        · have hret : p.returnBuffer b
              = { p with pool := List.replicate p.bufferSize 0 :: p.pool } := by
            simp [BufferPool.returnBuffer, hlt]
          rw [hret]
          refine ih _ hs ?_ ?_
          · simp only [List.length_cons]
            omega
          · intro b2 hb2
            rcases List.mem_cons.mp hb2 with h | h
            · subst h
              simp
            · exact h2 b2 h
        · have hret : p.returnBuffer b = p := by
            simp [BufferPool.returnBuffer, hlt]
          rw [hret]
          exact ih p hs h1 h2

/-- Claim C9 (amended): for a pool configured with
`(buffer_size, initial_capacity, max_pool_size)` where
`initial_capacity ≤ max_pool_size` (the server uses `(1444, 16, 128)`),
after any sequence of acquire/release operations the pool holds at most
`max_pool_size` buffers, every pooled buffer has exactly `buffer_size`
bytes, and the next `acquire()` returns a buffer of exactly `buffer_size`
bytes.  The amendment adds `initial_capacity ≤ max_pool_size`: the
constructor pre-allocates `initial_capacity` buffers without clamping, so a
pool constructed with more than `max_pool_size` buffers starts (and can
stay) above the bound (see `buffer_pool_bounds_cex`). -/
theorem buffer_pool_bounds (bufferSize initialCapacity maxPoolSize : Nat)
    (hinit : initialCapacity ≤ maxPoolSize) (ops : List PoolOp) :
    (runPoolOps (mkBufferPool bufferSize initialCapacity maxPoolSize) [] ops).1.pool.length
        ≤ maxPoolSize ∧
      (∀ b ∈ (runPoolOps (mkBufferPool bufferSize initialCapacity maxPoolSize) [] ops).1.pool,
        b.length = bufferSize) ∧
      (runPoolOps (mkBufferPool bufferSize initialCapacity maxPoolSize) [] ops).1.acquire.2.length
        = bufferSize := by
  have h1 : (mkBufferPool bufferSize initialCapacity maxPoolSize).pool.length
      ≤ (mkBufferPool bufferSize initialCapacity maxPoolSize).maxPoolSize := by
    simpa [mkBufferPool] using hinit
  have h2 : ∀ b ∈ (mkBufferPool bufferSize initialCapacity maxPoolSize).pool,
      b.length = (mkBufferPool bufferSize initialCapacity maxPoolSize).bufferSize := by
    intro b hb
    simp only [mkBufferPool] at hb ⊢
    rw [List.eq_of_mem_replicate hb]
    simp
  obtain ⟨hbs, hmax, hlen, hall⟩ :=
    runPoolOps_inv ops (mkBufferPool bufferSize initialCapacity maxPoolSize) [] h1 h2
  refine ⟨hlen, hall, ?_⟩
  rcases hp : (runPoolOps (mkBufferPool bufferSize initialCapacity maxPoolSize) [] ops).1.pool
    with _ | ⟨b, bs⟩
  · have hacq : (runPoolOps (mkBufferPool bufferSize initialCapacity maxPoolSize) [] ops).1.acquire
        = ((runPoolOps (mkBufferPool bufferSize initialCapacity maxPoolSize) [] ops).1,
          List.replicate
            (runPoolOps (mkBufferPool bufferSize initialCapacity maxPoolSize) [] ops).1.bufferSize
            0) := by
      simp only [BufferPool.acquire, hp]
    rw [hacq, hbs]
    simp [mkBufferPool]
  · have hb : b.length = bufferSize := hall b (by rw [hp]; exact List.mem_cons_self _ _)
    simp [BufferPool.acquire, hp, hb]

/-- Claim C9 counterexample: a pool constructed with `initial_capacity = 3`
but `max_pool_size = 1` starts with 3 pooled buffers; after one full
acquire/release cycle it still holds 2 buffers, outside `[0, max_pool_size]`. -/
theorem buffer_pool_bounds_cex :
    ¬ ((runPoolOps (mkBufferPool 1 3 1) [] [PoolOp.acq, PoolOp.rel]).1.pool.length ≤ 1) := by
  decide

/-- Witness for `buffer_pool_bounds` on the configuration `(1, 1, 1)` with
one acquire/release cycle. -/
theorem buffer_pool_bounds_witness :
    (runPoolOps (mkBufferPool 1 1 1) [] [PoolOp.acq, PoolOp.rel]).1.pool.length ≤ 1 ∧
      (∀ b ∈ (runPoolOps (mkBufferPool 1 1 1) [] [PoolOp.acq, PoolOp.rel]).1.pool,
        b.length = 1) ∧
      (runPoolOps (mkBufferPool 1 1 1) [] [PoolOp.acq, PoolOp.rel]).1.acquire.2.length = 1 :=
  buffer_pool_bounds 1 1 1 (by decide) [PoolOp.acq, PoolOp.rel]

/-- Witness for `heartbeat_cmd_frame_effect`: a HEARTBEAT from socket 5 while
only socket 3 is registered. -/
theorem heartbeat_cmd_frame_effect_witness :
    (readLoopHeartbeatStep { registry := [(3, freshPeerInfo 1 0)], counter := 1 } 5 2).2.1 = [] ∧
      (readLoopHeartbeatStep { registry := [(3, freshPeerInfo 1 0)], counter := 1 } 5 2).2.2 = false ∧
      (readLoopHeartbeatStep { registry := [(3, freshPeerInfo 1 0)], counter := 1 } 5 2).1.counter = 1 ∧
      ((∀ e ∈ [(3, freshPeerInfo 1 0)], e.1 ≠ 5) →
        (readLoopHeartbeatStep { registry := [(3, freshPeerInfo 1 0)], counter := 1 } 5 2).1
          = { registry := [(3, freshPeerInfo 1 0)], counter := 1 }) ∧
      (∀ e ∈ [(3, freshPeerInfo 1 0)], e.1 ≠ 5 →
        e ∈ (readLoopHeartbeatStep { registry := [(3, freshPeerInfo 1 0)], counter := 1 } 5 2).1.registry) ∧
      ((readLoopHeartbeatStep { registry := [(3, freshPeerInfo 1 0)], counter := 1 } 5 2).1.registry.map
          (fun e => (e.1, e.2.id, e.2.udpPeer))
        = ([(3, freshPeerInfo 1 0)] : List (Nat × PeerInfo)).map (fun e => (e.1, e.2.id, e.2.udpPeer))) :=
  heartbeat_cmd_frame_effect { registry := [(3, freshPeerInfo 1 0)], counter := 1 } 5 2

end AudioShare
